import Mathlib

/-!
Verification development for the vector-store abstraction and retrieval
pipeline of the llm-rag-chatbot repository.

The Python source is shallowly embedded: each backend operation becomes a
pure Lean function on an explicit state; floating-point arithmetic is
modelled over `ℚ`; values that a backend client returns (nearest-neighbour
candidates, generation outcomes) are passed as explicit arguments; fresh
vector ids produced by `uuid.uuid4()` / `hash()` are likewise passed in as
parameters.  Doc comments on definitions cite the source file and lines
they embed.
-/

namespace RagSpec

/-- A metadata value as stored in a chunk's metadata mapping: the code only
ever stores strings (source names, document ids) and integers (page
numbers).  Mirrors the values put into `chunk.metadata` dicts. -/
inductive MVal where
  | str (s : String)
  | int (n : Int)
deriving DecidableEq, Repr

/-- Python `str()` rendering of a metadata value, as used when a value is
interpolated into an f-string. -/
def MVal.toStr : MVal → String
  | .str s => s
  | .int n => toString n

/-- Python truthiness of a metadata value (`""` and `0` are falsy). -/
def MVal.truthy : MVal → Bool
  | .str s => s != ""
  | .int n => n != 0

/-- A metadata mapping (Python `dict`); looked up by first match, so an
override written by the code is placed in front of the original keys. -/
abbrev Meta := List (String × MVal)

/-- `m.get(k)`: first binding of key `k`, if any. -/
def metaGet : Meta → String → Option MVal
  | [], _ => none
  | p :: ps, k => if p.1 = k then some p.2 else metaGet ps k

/-- `m.get("content", "")` as used by the FAISS/Qdrant/Milvus result
builders: renders the stored value, defaulting to the empty string. -/
def metaContentD (m : Meta) : String :=
  match metaGet m "content" with
  | some v => v.toStr
  | none => ""

/-- `ingestion.chunker.TextChunk`: content plus provenance metadata
(src/ingestion/chunker.py lines 9-12). -/
structure Chunk where
  content : String
  metadata : Meta
deriving DecidableEq, Repr

/-- `vector_store.base.SearchResult` (src/vector_store/base.py lines
13-17). -/
structure SearchResult where
  content : String
  metadata : Meta
  distance : ℚ
deriving DecidableEq, Repr

/-- Python truthiness of an optional string (`None` and `""` are falsy). -/
def optTruthy : Option String → Bool
  | some s => s != ""
  | none => false

/-- `document_id or "unknown"` as written by every backend's
`add_chunks`. -/
def pyOrUnknown : Option String → String
  | some s => if s = "" then "unknown" else s
  | none => "unknown"

namespace DocumentTracker

/-- `DocumentTracker.add` (src/vector_store/document_tracker.py lines
34-41): no-op on a falsy identifier, otherwise insert into the persisted
set.  The tracker state is the set of ids held by the persisted file. -/
def add (t : Finset String) (d : Option String) : Finset String :=
  match d with
  | none => t
  | some s => if s = "" then t else insert s t

/-- `DocumentTracker.remove` (src/vector_store/document_tracker.py lines
43-50): no-op on a falsy identifier, otherwise erase from the set. -/
def remove (t : Finset String) (d : Option String) : Finset String :=
  match d with
  | none => t
  | some s => if s = "" then t else t.erase s

/-- `DocumentTracker.list` (src/vector_store/document_tracker.py lines
52-53): the sorted list of tracked ids. -/
def listIds (t : Finset String) : List String := t.sort (· ≤ ·)

end DocumentTracker

/-- A parsed JSON value, as `json.loads` produces it. -/
inductive Json where
  | null
  | bool (b : Bool)
  | num (q : ℚ)
  | str (s : String)
  | arr (items : List Json)
  | obj (fields : List (String × Json))

/-- Whether a parsed JSON value is a list (`isinstance(data, list)`). -/
def Json.isArr : Json → Bool
  | .arr _ => true
  | _ => false

/-- Python `str(item)` applied to a parsed JSON item
(src/vector_store/document_tracker.py line 25).  The tracker only ever
writes lists of strings; the rendering of non-string values is abstracted
to a fixed text per shape, which no theorem below depends on. -/
def Json.toPyStr : Json → String
  | .str s => s
  | .num q => toString q
  | .bool b => if b then "True" else "False"
  | .null => "None"
  | .arr _ => "<list>"
  | .obj _ => "<dict>"

/-- What the tracker's persisted file holds, from the reader's point of
view: the file may be missing, hold bytes that are not valid UTF-8 (so
`read_text(encoding="utf-8")` raises `UnicodeDecodeError`), hold UTF-8
text that `json.loads` rejects (`json.JSONDecodeError`), or hold text
parsing to a JSON value. -/
inductive TrackerFile where
  | missing
  | undecodable
  | invalid
  | parsed (v : Json)

/-- An exception that escapes the embedded Python code. -/
inductive PyError where
  | unicodeDecodeError
deriving DecidableEq, Repr

namespace DocumentTracker

/-- `DocumentTracker._read` (src/vector_store/document_tracker.py lines
19-28): a missing file, UTF-8 text that fails JSON decoding, or a
non-list JSON value all read as the empty set; a JSON list reads as the
set of `str(item)`.  The `try` block catches only `json.JSONDecodeError`,
so on a file whose bytes are not valid UTF-8 the `UnicodeDecodeError`
raised by `self.path.read_text(encoding="utf-8")` (line 23) propagates
out of `_read` — modelled as the `.error` outcome. -/
def readFile : TrackerFile → Except PyError (Finset String)
  | .missing => .ok ∅
  | .undecodable => .error .unicodeDecodeError
  | .invalid => .ok ∅
  | .parsed (.arr items) => .ok ((items.map Json.toPyStr).toFinset)
  | .parsed _ => .ok ∅

/-- `DocumentTracker.list` applied to a freshly read file: sorts the read
set, or propagates the reader's exception. -/
def listOfFile (f : TrackerFile) : Except PyError (List String) :=
  (readFile f).map (fun t => t.sort (· ≤ ·))

end DocumentTracker

namespace FaissStore

/-- State owned by a `FaissVectorStore`
(src/vector_store/providers/faiss_store.py): `_metadata` is the JSON
metadata map keyed by the internal vector id, `index` the set of vector
ids held by the FAISS index, `tracker` the shared `DocumentTracker`
set. -/
structure State where
  metadata : List (Nat × Meta)
  index : Finset Nat
  tracker : Finset String
deriving DecidableEq

/-- Python dict assignment `self._metadata[str(uid)] = v`: bind `uid`,
dropping any previous binding of the same key. -/
def mapInsert (m : List (Nat × Meta)) (k : Nat) (v : Meta) : List (Nat × Meta) :=
  (k, v) :: m.filter (fun p => p.1 != k)

/-- `self._metadata.get(str(idx))`: first binding of a key. -/
def mapLookup : List (Nat × Meta) → Nat → Option Meta
  | [], _ => none
  | p :: ps, k => if p.1 = k then some p.2 else mapLookup ps k

/-- The metadata dict written per chunk by `FaissVectorStore.add_chunks`
(src/vector_store/providers/faiss_store.py lines 93-97):
`{**chunk.metadata, "content": ..., "document_id": document_id or
"unknown"}`; the overriding keys are placed in front for first-match
lookup. -/
def chunkMeta (c : Chunk) (docId : Option String) : Meta :=
  ("content", .str c.content) :: ("document_id", .str (pyOrUnknown docId)) :: c.metadata

/-- `FaissVectorStore.add_chunks` (src/vector_store/providers/faiss_store.py
lines 80-106).  The fresh 63-bit uuids drawn per chunk are passed in as
`uids`.  Returns the reported count together with the new state. -/
def add_chunks (s : State) (chunks : List Chunk) (docId : Option String)
    (uids : List Nat) : Nat × State :=
  if chunks.isEmpty then (0, s)
  else
    let entries := (uids.zip chunks).map (fun p => (p.1, chunkMeta p.2 docId))
    let md := entries.foldl (fun m p => mapInsert m p.1 p.2) s.metadata
    let st : State :=
      { metadata := md
        index := s.index ∪ uids.toFinset
        tracker := if optTruthy docId then DocumentTracker.add s.tracker docId
                   else s.tracker }
    (chunks.length, st)

/-- `FaissVectorStore.delete_by_document_id`
(src/vector_store/providers/faiss_store.py lines 139-152): collect the
metadata keys whose `document_id` matches, and when there are any, remove
those ids from the index and pop those keys from the metadata map; the
tracker entry is removed in either case. -/
def delete_by_document_id (s : State) (d : String) : State :=
  let toRemove :=
    (s.metadata.filter (fun p => decide (metaGet p.2 "document_id" = some (.str d)))).map (·.1)
  let s1 : State :=
    if toRemove.isEmpty then s
    else
      { s with
        index := s.index \ toRemove.toFinset
        metadata := s.metadata.filter (fun p => !(decide (p.1 ∈ toRemove))) }
  { s1 with tracker := DocumentTracker.remove s1.tracker (some d) }

/-- `FaissVectorStore.search` (src/vector_store/providers/faiss_store.py
lines 108-137).  The `(score, id)` rows that `self.index.search` returns
for the embedded query are passed in as `cands` (id `-1` is FAISS
padding); `dflt` is the process-wide `config.SIMILARITY_THRESHOLD`.  The
inner-product score is compared with the threshold directly and the
reported distance is `1 - score`. -/
def search (s : State) (cands : List (ℚ × Int)) (thOpt : Option ℚ) (dflt : ℚ) :
    List SearchResult :=
  if s.index = ∅ then []
  else
    let th := thOpt.getD dflt
    (cands.filter (fun c => (c.2 != -1) && !(decide (c.1 < th)))).map (fun c =>
      let m := (mapLookup s.metadata c.2.toNat).getD []
      { content := metaContentD m, metadata := m, distance := 1 - c.1 })

/-- `VectorStore.list_documents` (src/vector_store/base.py lines 47-49):
delegates to the tracker. -/
def list_documents (s : State) : List String := DocumentTracker.listIds s.tracker

/-- A client-visible mutation of the store: one `add_chunks` or one
`delete_by_document_id` call, with the fresh uuids the add drew. -/
inductive Op where
  | add (docId : Option String) (chunks : List Chunk) (uids : List Nat)
  | del (docId : String)

/-- Apply one operation to the store state. -/
def step (s : State) : Op → State
  | .add d cs us => (add_chunks s cs d us).2
  | .del d => delete_by_document_id s d

/-- Run a sequence of operations. -/
def run (s : State) (ops : List Op) : State := ops.foldl step s

/-- The registry predicate exactly as the claim words it: `d` should be
tracked iff some `add_chunks` call with identifier `d` has completed and
no later `delete_by_document_id d` has completed. -/
def claimAppears (d : String) (ops : List Op) : Bool :=
  ops.foldl
    (fun b op =>
      match op with
      | .add dI _ _ => if dI = some d then true else b
      | .del dI => if dI = d then false else b)
    false

/-- One step of the registry predicate the code actually maintains: only
an `add_chunks` call with a *non-empty chunk list* registers the
document. -/
def trackedStep (d : String) (b : Bool) : Op → Bool
  | .add dI cs _ => if dI = some d ∧ cs.isEmpty = false then true else b
  | .del dI => if dI = d then false else b

/-- The registry predicate the code actually maintains: only an
`add_chunks` call with a *non-empty chunk list* registers the document,
and only then when the identifier is truthy. -/
def trackedSpec (d : String) (ops : List Op) : Bool :=
  ops.foldl (trackedStep d) false

end FaissStore

namespace ChromaStore

/-- One object held by the Chroma collection: its id, document text and
metadata. -/
structure Entry where
  eid : String
  doc : String
  meta : Meta
deriving DecidableEq

/-- State owned by a `ChromaVectorStore`
(src/vector_store/providers/chroma_store.py): the collection contents and
the shared tracker set. -/
structure State where
  entries : List Entry
  tracker : Finset String
deriving DecidableEq

/-- The metadata dict written per chunk by `ChromaVectorStore.add_chunks`
(src/vector_store/providers/chroma_store.py lines 51-54):
`{**c.metadata, "document_id": document_id or "unknown"}`. -/
def chunkMeta (c : Chunk) (docId : Option String) : Meta :=
  ("document_id", .str (pyOrUnknown docId)) :: c.metadata

/-- `ChromaVectorStore.add_chunks`
(src/vector_store/providers/chroma_store.py lines 42-67).  The
process-dependent `hash()` used to build chunk ids is passed in as
`hashFn`. -/
def add_chunks (s : State) (chunks : List Chunk) (docId : Option String)
    (hashFn : String → Int) : Nat × State :=
  if chunks.isEmpty then (0, s)
  else
    let newEntries := (List.enumFrom 0 chunks).map (fun p =>
      { eid := "chunk_" ++ toString p.1 ++ "_" ++ toString (hashFn p.2.content % (10 ^ 8 : Int))
        doc := p.2.content
        meta := chunkMeta p.2 docId : Entry })
    let st : State :=
      { entries := s.entries ++ newEntries
        tracker := if optTruthy docId then DocumentTracker.add s.tracker docId
                   else s.tracker }
    (chunks.length, st)

/-- `ChromaVectorStore.delete_by_document_id`
(src/vector_store/providers/chroma_store.py lines 120-127): fetch the ids
whose metadata `document_id` matches, delete them when there are any, then
remove the tracker entry. -/
def delete_by_document_id (s : State) (d : String) : State :=
  let ids :=
    (s.entries.filter (fun e => decide (metaGet e.meta "document_id" = some (.str d)))).map (·.eid)
  let entries1 :=
    if ids.isEmpty then s.entries
    else s.entries.filter (fun e => !(decide (e.eid ∈ ids)))
  { entries := entries1, tracker := DocumentTracker.remove s.tracker (some d) }

/-- One candidate row of the collection's nearest-neighbour reply
(`results["documents"][0]`, `results["metadatas"][0]`, distances),
returned in ascending-distance order by Chroma. -/
structure Cand where
  doc : String
  meta : Meta
  dist : ℚ
deriving DecidableEq, Repr

/-- The cosine-distance to similarity conversion of the Chroma backend
(src/vector_store/providers/chroma_store.py line 104):
`1 - dist/2 if dist <= 2 else 0`. -/
def chromaSim (d : ℚ) : ℚ := if d ≤ 2 then 1 - d / 2 else 0

/-- Build the `SearchResult` the Chroma search appends
(src/vector_store/providers/chroma_store.py line 107). -/
def mkResult (c : Cand) : SearchResult :=
  { content := c.doc, metadata := c.meta, distance := c.dist }

/-- The filtering loop of `ChromaVectorStore.search`
(src/vector_store/providers/chroma_store.py lines 103-110): walk the
candidates in order, keep those whose similarity reaches the threshold,
and break once `top_k` results have been appended; `n` counts the results
already appended. -/
def searchLoop (th : ℚ) (k : Nat) : List Cand → Nat → List SearchResult
  | [], _ => []
  | c :: cs, n =>
    if th ≤ chromaSim c.dist then
      if k ≤ n + 1 then [mkResult c]
      else mkResult c :: searchLoop th k cs (n + 1)
    else searchLoop th k cs n

/-- Over-fetch size `fetch_k` (src/vector_store/providers/chroma_store.py
line 76): `max(top_k * 2, 20) if similarity_threshold else top_k`. -/
def fetchK (k : Nat) (thOpt : Option ℚ) : Nat :=
  match thOpt with
  | some t => if t = 0 then k else max (k * 2) 20
  | none => k

/-- `ChromaVectorStore.search` (src/vector_store/providers/chroma_store.py
lines 69-118).  The collection's reply for the embedded query is passed
in as `cands`; `dflt` is `config.SIMILARITY_THRESHOLD`.  When the
threshold filtered everything out but candidates exist, the closest
`top_k` candidates are returned instead. -/
def search (cands : List Cand) (k : Nat) (thOpt : Option ℚ) (dflt : ℚ) :
    List SearchResult :=
  let th := thOpt.getD dflt
  let res := searchLoop th k cands 0
  if res.isEmpty && !cands.isEmpty then (cands.take k).map mkResult
  else res

/-- `VectorStore.list_documents` for the Chroma backend: delegates to the
tracker (src/vector_store/base.py lines 47-49). -/
def list_documents (s : State) : List String := DocumentTracker.listIds s.tracker

end ChromaStore

namespace QdrantStore

/-- One hit of the Qdrant client's reply: `res.score` may be `None`, and
`res.payload` may be `None`. -/
structure Hit where
  score : Option ℚ
  payload : Option Meta

/-- `score = res.score or 0.0`
(src/vector_store/providers/qdrant_store.py line 115). -/
def hitScore (h : Hit) : ℚ := h.score.getD 0

/-- `QdrantVectorStore.search` (src/vector_store/providers/qdrant_store.py
lines 96-125): filter the hits by the threshold — with no fallback when
everything is filtered out. -/
def search (hits : List Hit) (thOpt : Option ℚ) (dflt : ℚ) : List SearchResult :=
  let th := thOpt.getD dflt
  (hits.filter (fun h => !(decide (hitScore h < th)))).map (fun h =>
    let pl := h.payload.getD []
    { content := metaContentD pl, metadata := pl, distance := 1 - hitScore h })

end QdrantStore

/-- The native-distance to similarity conversion of the Weaviate backend
(src/vector_store/providers/weaviate_store.py lines 138-139):
`1.0 - float(dist) if dist is not None else 0`, for a cosine distance
that Weaviate documents in [0, 2]. -/
def weaviateSimilarity : Option ℚ → ℚ
  | some d => 1 - d
  | none => 0

/-- The conversion of the Milvus backend
(src/vector_store/providers/milvus_store.py line 178): `1 - hit.distance`,
where a COSINE-metric Milvus reply reports the cosine similarity in
[-1, 1] as `distance`. -/
def milvusSimilarity (d : ℚ) : ℚ := 1 - d

/-- The conversion of the pgvector backend
(src/vector_store/providers/pgvector_store.py lines 156-157):
`dist_f = float(dist) if dist is not None else 2.0`, then
`1.0 - (dist_f / 2.0) if dist_f <= 2 else 0`. -/
def pgvectorSimilarity (dist : Option ℚ) : ℚ :=
  let d := dist.getD 2
  if d ≤ 2 then 1 - d / 2 else 0

/-- The FAISS backend compares its native inner-product score against the
threshold directly (src/vector_store/providers/faiss_store.py line 127):
the score itself plays the role of the normalized similarity. -/
def faissSimilarity (score : ℚ) : ℚ := score

/-- The Qdrant backend uses `res.score or 0.0` directly as the similarity
(src/vector_store/providers/qdrant_store.py lines 115-116). -/
def qdrantSimilarity (score : Option ℚ) : ℚ := score.getD 0

/-- The Pinecone backend uses `match.get("score") or 0.0` directly as the
similarity (src/vector_store/providers/pinecone_store.py lines 125-128). -/
def pineconeSimilarity (score : Option ℚ) : ℚ := score.getD 0

namespace RAGChain

/-- `rag.chain.RAGResponse` (src/rag/chain.py lines 32-36); each source is
the `(metadata.get("source"), metadata.get("page"))` pair. -/
structure Response where
  answer : String
  sources : List (Option MVal × Option MVal)
  context_chunks : List String
deriving DecidableEq

/-- How one `self.client.generate(...)` call ends: a reply text, or a
raised exception carrying an optional `status_code`. -/
inductive GenOutcome where
  | ok (text : String)
  | raised (statusCode : Option Nat)

/-- Python slicing `s[:n]` over the characters of a string. -/
def strTake (s : String) (n : Nat) : String := ⟨s.data.take n⟩

/-- The canned no-knowledge answer (src/rag/chain.py line 65). -/
def cannedNoKnowledge : String :=
  "I don\x27t have specific information about that in my knowledge base yet. You can upload documents to expand my knowledge, or ask me something else!"

/-- `r.metadata.get("source", "unknown")` rendered into the context label
(src/rag/chain.py line 49). -/
def sourceOf (r : SearchResult) : String :=
  match metaGet r.metadata "source" with
  | some v => v.toStr
  | none => "unknown"

/-- The optional page label (src/rag/chain.py lines 50-51): present only
when `r.metadata.get("page", "")` is truthy. -/
def pageStrOf (r : SearchResult) : String :=
  match metaGet r.metadata "page" with
  | some v => if v.truthy then " (page " ++ v.toStr ++ ")" else ""
  | none => ""

/-- One labelled context part (src/rag/chain.py lines 48-52), for the
`i`-th result (counting from 1). -/
def contextPart (i : Nat) (r : SearchResult) : String :=
  "[Source " ++ toString i ++ ": " ++ sourceOf r ++ pageStrOf r ++ "]\n" ++ r.content

/-- Python `"\n\n---\n\n".join(parts)` (src/rag/chain.py line 53). -/
def joinParts : List String → String
  | [] => ""
  | [p] => p
  | p :: q :: rest => p ++ "\n\n---\n\n" ++ joinParts (q :: rest)

/-- `RAGChain._build_context` (src/rag/chain.py lines 46-53). -/
def buildContext (results : List SearchResult) : String :=
  joinParts ((List.enumFrom 1 results).map (fun p => contextPart p.1 p.2))

/-- `RAG_PROMPT.format(context=..., question=...)` (src/rag/chain.py lines
22-29 and 70). -/
def ragPrompt (context question : String) : String :=
  "You are a helpful AI chatbot assistant. Answer the user\x27s question based on the following context. If the context contains relevant information, use it to formulate a helpful answer. If the context does not contain enough information, say so politely and offer to help with related topics. Be conversational and friendly. Keep responses concise but informative.\n\nContext:\n"
    ++ context ++ "\n\nUser question: " ++ question ++ "\n\nYour response:"

/-- The truncated excerpt of the most relevant chunk (src/rag/chain.py
line 83): `(results[0].content[:500] + "…") if results and
len(results[0].content) > 500 else (results[0].content if results else
"")`. -/
def snippetOf (results : List SearchResult) : String :=
  match results with
  | [] => ""
  | r :: _ => if 500 < r.content.length then strTake r.content 500 ++ "…" else r.content

/-- `status or 'connection'` (src/rag/chain.py line 92); a `None` or `0`
status code is falsy. -/
def statusStr : Option Nat → String
  | some n => if n = 0 then "connection" else toString n
  | none => "connection"

/-- The hint picked in the cloud branch (src/rag/chain.py lines 85-90). -/
def cloudHint (status : Option Nat) : String :=
  if status = some 401 then
    "Check **OLLAMA_API_KEY** in .env (get a key at https://ollama.com/settings/keys)."
  else if status = some 404 then
    "Use a **cloud model** name in OLLAMA_MODEL (e.g. `ministral-3:8b`, `gemini-3-flash-preview`). See https://ollama.com/search?c=cloud"
  else
    "Check **OLLAMA_API_KEY** and network, and that **OLLAMA_MODEL** is a cloud model (https://ollama.com/search?c=cloud)."

/-- The explanatory message of the cloud branch, everything before the
snippet (src/rag/chain.py lines 91-94). -/
def cloudAnswerHead (status : Option Nat) : String :=
  "Ollama Cloud error (" ++ statusStr status ++ "). " ++ cloudHint status
    ++ "\n\nHere\x27s relevant text from your documents:\n\n"

/-- The explanatory message of the local branch, everything before the
snippet (src/rag/chain.py lines 96-101). -/
def localAnswerHead (model : String) : String :=
  "Ollama isn\x27t running, so I can\x27t generate a full answer. Start it with: **ollama serve** (and run **ollama pull "
    ++ model
    ++ "** if needed). Or set **OLLAMA_API_KEY** to use Ollama Cloud.\n\nHere\x27s relevant text from your documents:\n\n"

/-- `RAGChain.query` (src/rag/chain.py lines 55-112).  `apiKey` and
`model` stand for `config.OLLAMA_API_KEY` and `config.OLLAMA_MODEL`; the
vector store's reply is passed in as `results` and the generation client
as `gen`, applied to the formatted prompt. -/
def query (apiKey model : String) (results : List SearchResult)
    (gen : String → GenOutcome) (question : String) : Response :=
  let context := if results.isEmpty then "" else buildContext results
  if context = "" then
    { answer := cannedNoKnowledge, sources := [], context_chunks := [] }
  else
    let prompt := ragPrompt context question
    let answer :=
      match gen prompt with
      | .ok text => text.trim
      | .raised status =>
        let snippet := snippetOf results
        if apiKey ≠ "" then cloudAnswerHead status ++ snippet
        else localAnswerHead model ++ snippet
    { answer := answer
      sources := results.map (fun r => (metaGet r.metadata "source", metaGet r.metadata "page"))
      context_chunks := results.map (·.content) }

end RAGChain

/-! ## Theorems -/

/-- C9 (code bug): a missing tracker file, UTF-8 text that fails JSON
decoding, or JSON that is not a list is indeed read as the empty set (so
`list()` returns `[]`) without error — but the claim's "for every
persisted file content" fails on a file whose bytes are not valid UTF-8:
such content is not valid JSON either, yet `read_text(encoding="utf-8")`
raises `UnicodeDecodeError` before `json.loads` runs, and `_read`'s
`except json.JSONDecodeError` does not catch it, so the error escapes
instead of the file reading as empty. -/
theorem claim_C9 (f : TrackerFile)
    (h : f = .missing ∨ f = .invalid ∨ ∃ v, f = .parsed v ∧ v.isArr = false) :
    (DocumentTracker.readFile f = .ok ∅ ∧ DocumentTracker.listOfFile f = .ok []) ∧
    DocumentTracker.readFile .undecodable = .error .unicodeDecodeError ∧
    DocumentTracker.listOfFile .undecodable = .error .unicodeDecodeError := by
  have hr : DocumentTracker.readFile f = .ok ∅ := by
    rcases h with h | h | ⟨v, hv, hva⟩
    · subst h; rfl
    · subst h; rfl
    · subst hv
      cases v <;> simp_all [DocumentTracker.readFile, Json.isArr]
  refine ⟨⟨hr, ?_⟩, rfl, rfl⟩
  simp [DocumentTracker.listOfFile, hr, Except.map]

theorem claim_C9_witness :
    (DocumentTracker.readFile .invalid = .ok ∅ ∧
      DocumentTracker.listOfFile .invalid = .ok []) ∧
    DocumentTracker.readFile .undecodable = .error .unicodeDecodeError ∧
    DocumentTracker.listOfFile .undecodable = .error .unicodeDecodeError :=
  claim_C9 .invalid (Or.inr (Or.inl rfl))

/-- C8: for the FAISS and Chroma backends, `add_chunks([], document_id)`
returns `0` and leaves the whole store state — index contents and tracker
alike — unchanged. -/
theorem claim_C8 (sf : FaissStore.State) (sc : ChromaStore.State)
    (d : Option String) (uids : List Nat) (hashFn : String → Int) :
    FaissStore.add_chunks sf [] d uids = (0, sf) ∧
    ChromaStore.add_chunks sc [] d hashFn = (0, sc) :=
  ⟨rfl, rfl⟩

/-- C5: on an empty search result list, `RAGChain.query` returns the
canned no-knowledge answer with empty sources and empty context chunks,
and the outcome does not depend on the generation client at all (no
generation call is made). -/
theorem claim_C5 (apiKey model question : String)
    (gen gen2 : String → RAGChain.GenOutcome) :
    RAGChain.query apiKey model [] gen question =
      { answer := RAGChain.cannedNoKnowledge, sources := [], context_chunks := [] } ∧
    RAGChain.query apiKey model [] gen question =
      RAGChain.query apiKey model [] gen2 question :=
  ⟨rfl, rfl⟩

/-- C3 (amended): the Chroma and pgvector conversions agree and stay in
[0, 1] on any non-negative cosine distance; the Weaviate conversion is
`1 - distance` and only stays in [-1, 1] on its documented distance range
[0, 2]; FAISS, Qdrant and Pinecone pass the native cosine score (in
[-1, 1]) through unchanged; Milvus maps its native cosine score `q` to
`1 - q`, which ranges over [0, 2]. -/
theorem claim_C3 (d e q : ℚ) (hd : 0 ≤ d) (he0 : 0 ≤ e) (he2 : e ≤ 2)
    (hq1 : -1 ≤ q) (hq2 : q ≤ 1) :
    (0 ≤ ChromaStore.chromaSim d ∧ ChromaStore.chromaSim d ≤ 1) ∧
    pgvectorSimilarity (some d) = ChromaStore.chromaSim d ∧
    weaviateSimilarity (some e) = 1 - e ∧
    (-1 ≤ weaviateSimilarity (some e) ∧ weaviateSimilarity (some e) ≤ 1) ∧
    (0 ≤ milvusSimilarity q ∧ milvusSimilarity q ≤ 2) ∧
    faissSimilarity q = q ∧
    qdrantSimilarity (some q) = q ∧
    pineconeSimilarity (some q) = q := by
  refine ⟨⟨?_, ?_⟩, rfl, rfl, ⟨?_, ?_⟩, ⟨?_, ?_⟩, rfl, rfl, rfl⟩ <;>
    simp only [ChromaStore.chromaSim, weaviateSimilarity, milvusSimilarity] <;>
    first
      | (split_ifs <;> linarith)
      | linarith

theorem claim_C3_witness :
    (0 ≤ ChromaStore.chromaSim 0 ∧ ChromaStore.chromaSim 0 ≤ 1) ∧
    pgvectorSimilarity (some 0) = ChromaStore.chromaSim 0 ∧
    weaviateSimilarity (some 2) = 1 - 2 ∧
    (-1 ≤ weaviateSimilarity (some 2) ∧ weaviateSimilarity (some 2) ≤ 1) ∧
    (0 ≤ milvusSimilarity 1 ∧ milvusSimilarity 1 ≤ 2) ∧
    faissSimilarity 1 = 1 ∧
    qdrantSimilarity (some 1) = 1 ∧
    pineconeSimilarity (some 1) = 1 :=
  claim_C3 0 2 1 (by decide) (by decide) (by decide) (by decide) (by decide)

/-- C3 counterexample: the Weaviate backend is cosine-distance based (its
documented distance range is [0, 2]), yet at distance 2 its conversion
yields -1 — outside [0, 1] — and disagrees with the `1 - distance/2` rule
the claim states for cosine-distance backends. -/
theorem claim_C3_counterexample :
    weaviateSimilarity (some 2) = -1 ∧
    weaviateSimilarity (some 2) < 0 ∧
    weaviateSimilarity (some 2) ≠ 1 - 2 / 2 := by
  norm_num [weaviateSimilarity]

/-- When the threshold rejects every candidate, the Chroma filtering loop
produces nothing. -/
lemma searchLoop_eq_nil (th : ℚ) (k : Nat) :
    ∀ (cs : List ChromaStore.Cand) (n : Nat),
      (∀ c ∈ cs, ChromaStore.chromaSim c.dist < th) →
      ChromaStore.searchLoop th k cs n = [] := by
  intro cs
  induction cs with
  | nil => intro n _; rfl
  | cons c cs ih =>
    intro n hall
    unfold ChromaStore.searchLoop
    rw [if_neg (not_le.mpr (hall c (List.mem_cons_self c cs)))]
    exact ih n (fun x hx => hall x (List.mem_cons_of_mem c hx))

/-- C7 (amended): the "return closest unfiltered results" fallback is
backend-specific: when the threshold filters out every candidate, the
Chroma backend returns the closest `top_k` unfiltered candidates (a
non-empty list when `0 < top_k`), while the Qdrant backend returns the
empty list. -/
theorem claim_C7 (cands : List ChromaStore.Cand) (k : Nat) (th dflt : ℚ)
    (hall : ∀ c ∈ cands, ChromaStore.chromaSim c.dist < th)
    (hne : cands ≠ [])
    (hits : List QdrantStore.Hit)
    (hallq : ∀ h ∈ hits, QdrantStore.hitScore h < th) :
    ChromaStore.search cands k (some th) dflt =
      (cands.take k).map ChromaStore.mkResult ∧
    (0 < k → ChromaStore.search cands k (some th) dflt ≠ []) ∧
    QdrantStore.search hits (some th) dflt = [] := by
  have hloop := searchLoop_eq_nil th k cands 0 hall
  have hsearch : ChromaStore.search cands k (some th) dflt =
      (cands.take k).map ChromaStore.mkResult := by
    unfold ChromaStore.search
    simp [hloop, hne]
  refine ⟨hsearch, ?_, ?_⟩
  · intro hk h
    rw [hsearch] at h
    have := congrArg List.length h
    simp [List.length_take] at this
    rcases this with h1 | h1
    · omega
    · exact hne h1
  · have hfil : hits.filter (fun h => !decide (QdrantStore.hitScore h < th)) = [] := by
      rw [List.filter_eq_nil_iff]
      intro h hh
      simpa using hallq h hh
    simp [QdrantStore.search, hfil]

theorem claim_C7_witness :
    ChromaStore.search [⟨"a", [], 4⟩] 1 (some 1) 1 =
      (([⟨"a", [], 4⟩] : List ChromaStore.Cand).take 1).map ChromaStore.mkResult ∧
    (0 < 1 → ChromaStore.search [⟨"a", [], 4⟩] 1 (some 1) 1 ≠ []) ∧
    QdrantStore.search [⟨some 0, some []⟩] (some 1) 1 = [] :=
  claim_C7 [⟨"a", [], 4⟩] 1 1 1
    (by intro c hc; simp at hc; subst hc; simp only [ChromaStore.chromaSim]; norm_num)
    (by simp)
    [⟨some 0, some []⟩]
    (by intro h hh; simp at hh; subst hh; simp [QdrantStore.hitScore])

/-- C7 counterexample: the Qdrant backend does not implement the
fallback.  With one candidate hit whose score 0 lies below the threshold
1, filtering removes everything and `search` returns the empty list
rather than the closest unfiltered candidate. -/
theorem claim_C7_counterexample :
    QdrantStore.hitScore ⟨some 0, some []⟩ < 1 ∧
    ([(⟨some 0, some []⟩ : QdrantStore.Hit)] ≠ []) ∧
    QdrantStore.search [⟨some 0, some []⟩] none 1 = [] := by
  refine ⟨by simp [QdrantStore.hitScore], by simp, ?_⟩
  have hfil : List.filter (fun h => !decide (QdrantStore.hitScore h < 1))
      [(⟨some 0, some []⟩ : QdrantStore.Hit)] = [] := by
    rw [List.filter_eq_nil_iff]
    intro h hh
    simp at hh
    subst hh
    simp [QdrantStore.hitScore]
  simp [QdrantStore.search, hfil]

/-- The Chroma filtering loop appends at most `k - n` further results. -/
lemma searchLoop_length (th : ℚ) (k : Nat) :
    ∀ (cs : List ChromaStore.Cand) (n : Nat), n < k →
      (ChromaStore.searchLoop th k cs n).length ≤ k - n := by
  intro cs
  induction cs with
  | nil => intro n _; simp [ChromaStore.searchLoop]
  | cons c cs ih =>
    intro n hn
    unfold ChromaStore.searchLoop
    split
    · split
      · simpa using by omega
      · rename_i hk2
        have := ih (n + 1) (by omega)
        simp only [List.length_cons]
        omega
    · have := ih n hn
      omega

/-- The Chroma filtering loop returns a sublist of the candidates, mapped
to results, hence preserves the candidate order. -/
lemma searchLoop_sublist (th : ℚ) (k : Nat) :
    ∀ (cs : List ChromaStore.Cand) (n : Nat),
      List.Sublist (ChromaStore.searchLoop th k cs n) (cs.map ChromaStore.mkResult) := by
  intro cs
  induction cs with
  | nil => intro n; simp [ChromaStore.searchLoop]
  | cons c cs ih =>
    intro n
    unfold ChromaStore.searchLoop
    split
    · split
      · exact (List.nil_sublist _).cons₂ _
      · exact (ih (n + 1)).cons₂ _
    · exact (ih n).cons _

/-- Everything `ChromaVectorStore.search` returns is a sublist of the
candidate list, in order. -/
lemma chromaSearch_sublist (cands : List ChromaStore.Cand) (k : Nat)
    (thOpt : Option ℚ) (dflt : ℚ) :
    List.Sublist (ChromaStore.search cands k thOpt dflt)
      (cands.map ChromaStore.mkResult) := by
  unfold ChromaStore.search
  dsimp only
  split
  · rw [List.map_take]
    exact List.take_sublist _ _
  · exact searchLoop_sublist _ _ _ _

/-- The Chroma conversion is antitone: a larger distance never yields a
larger similarity. -/
lemma chromaSim_antitone {a b : ℚ} (h : a ≤ b) :
    ChromaStore.chromaSim b ≤ ChromaStore.chromaSim a := by
  unfold ChromaStore.chromaSim
  split_ifs <;> linarith

/-- C2 (amended): for every `top_k = k ≥ 1`, the Chroma and FAISS
searches return at most `k` results ordered by descending normalized
similarity, given the backend library's reply in its native order (Chroma
lists candidates by ascending distance; FAISS returns at most `k` rows by
descending inner-product score). -/
theorem claim_C2 (k : Nat) (hk : 0 < k) (thOpt : Option ℚ) (dflt : ℚ)
    (cands : List ChromaStore.Cand)
    (hc : cands.Pairwise (fun a b => a.dist ≤ b.dist))
    (s : FaissStore.State) (fcands : List (ℚ × Int))
    (hf : fcands.Pairwise (fun a b => b.1 ≤ a.1)) (hlen : fcands.length ≤ k) :
    (ChromaStore.search cands k thOpt dflt).length ≤ k ∧
    (ChromaStore.search cands k thOpt dflt).Pairwise
      (fun a b => ChromaStore.chromaSim b.distance ≤ ChromaStore.chromaSim a.distance) ∧
    (FaissStore.search s fcands thOpt dflt).length ≤ k ∧
    (FaissStore.search s fcands thOpt dflt).Pairwise
      (fun a b => faissSimilarity (1 - b.distance) ≤ faissSimilarity (1 - a.distance)) := by
  refine ⟨?_, ?_, ?_, ?_⟩
  · unfold ChromaStore.search
    dsimp only
    split
    · simp
    · have := searchLoop_length (thOpt.getD dflt) k cands 0 hk
      simpa using this
  · have hmap : (cands.map ChromaStore.mkResult).Pairwise
        (fun a b => ChromaStore.chromaSim b.distance ≤ ChromaStore.chromaSim a.distance) := by
      rw [List.pairwise_map]
      exact hc.imp (fun h => chromaSim_antitone h)
    exact hmap.sublist (chromaSearch_sublist cands k thOpt dflt)
  · unfold FaissStore.search
    split
    · simp
    · calc (List.map _ (List.filter _ fcands)).length
          = (List.filter _ fcands).length := List.length_map _ _
        _ ≤ fcands.length := List.length_filter_le _ _
        _ ≤ k := hlen
  · unfold FaissStore.search
    split
    · simp
    · rw [List.pairwise_map]
      refine (hf.filter _).imp ?_
      intro a b h
      simp only [faissSimilarity]
      ring_nf
      linarith

theorem claim_C2_witness :
    (ChromaStore.search [⟨"a", [], 4⟩] 1 none 1).length ≤ 1 ∧
    (ChromaStore.search [⟨"a", [], 4⟩] 1 none 1).Pairwise
      (fun a b => ChromaStore.chromaSim b.distance ≤ ChromaStore.chromaSim a.distance) ∧
    (FaissStore.search ⟨[], ∅, ∅⟩ [(1, 0)] none 1).length ≤ 1 ∧
    (FaissStore.search ⟨[], ∅, ∅⟩ [(1, 0)] none 1).Pairwise
      (fun a b => faissSimilarity (1 - b.distance) ≤ faissSimilarity (1 - a.distance)) :=
  claim_C2 1 (by decide) none 1 [⟨"a", [], 4⟩] (by simp) ⟨[], ∅, ∅⟩ [(1, 0)]
    (by simp) (by decide)

/-- C2 counterexample: with `top_k = 0` the Chroma search can return one
result, because the loop appends a passing candidate before testing the
`top_k` bound.  Here the collection legitimately returns one candidate
(`fetch_k = 20` since an explicit threshold was given), its distance 0
passes the threshold 1, and the search returns 1 > 0 results. -/
theorem claim_C2_counterexample :
    ¬ (ChromaStore.search [⟨"a", [], 0⟩] 0 (some 1) 1).length ≤ 0 ∧
    (1 : Nat) ≤ ChromaStore.fetchK 0 (some 1) ∧
    ([⟨"a", [], 0⟩] : List ChromaStore.Cand).Pairwise (fun a b => a.dist ≤ b.dist) := by
  refine ⟨?_, by norm_num [ChromaStore.fetchK], by simp⟩
  have hsim : ChromaStore.chromaSim 0 = 1 := by norm_num [ChromaStore.chromaSim]
  have : ChromaStore.search [⟨"a", [], 0⟩] 0 (some 1) 1 =
      [ChromaStore.mkResult ⟨"a", [], 0⟩] := by
    unfold ChromaStore.search ChromaStore.searchLoop
    norm_num [hsim]
  rw [this]
  simp

/-- `delete_by_document_id` only ever changes the tracker by removing the
deleted identifier. -/
lemma faiss_delete_tracker (s : FaissStore.State) (e : String) :
    (FaissStore.delete_by_document_id s e).tracker =
      DocumentTracker.remove s.tracker (some e) := by
  unfold FaissStore.delete_by_document_id
  dsimp only
  split <;> rfl

/-- `add_chunks` only ever changes the tracker by inserting a truthy
identifier when the chunk list is non-empty. -/
lemma faiss_add_tracker (s : FaissStore.State) (cs : List Chunk)
    (dI : Option String) (us : List Nat) :
    (FaissStore.add_chunks s cs dI us).2.tracker =
      if cs.isEmpty then s.tracker
      else if optTruthy dI then DocumentTracker.add s.tracker dI else s.tracker := by
  unfold FaissStore.add_chunks
  dsimp only
  split <;> simp_all

/-- Core invariant: running any operation sequence keeps tracker
membership of a non-empty identifier `d` in lockstep with the
`trackedStep` fold. -/
lemma run_tracker_mem (d : String) (hd : d ≠ "") :
    ∀ (ops : List FaissStore.Op) (s : FaissStore.State) (b : Bool),
      (d ∈ s.tracker ↔ b = true) →
      (d ∈ (FaissStore.run s ops).tracker ↔
        ops.foldl (FaissStore.trackedStep d) b = true) := by
  intro ops
  induction ops with
  | nil => intro s b hb; exact hb
  | cons op ops ih =>
    intro s b hb
    show d ∈ (FaissStore.run (FaissStore.step s op) ops).tracker ↔
      ops.foldl (FaissStore.trackedStep d) (FaissStore.trackedStep d b op) = true
    refine ih _ _ ?_
    cases op with
    | add dI cs us =>
      show d ∈ (FaissStore.add_chunks s cs dI us).2.tracker ↔
        FaissStore.trackedStep d b (.add dI cs us) = true
      rw [faiss_add_tracker]
      simp only [FaissStore.trackedStep]
      by_cases hcs : cs.isEmpty
      · rw [if_pos hcs, if_neg (by simp [hcs])]
        exact hb
      · have hcs' : cs.isEmpty = false := by simpa using hcs
        rw [if_neg hcs]
        cases dI with
        | none =>
          rw [if_neg (by simp [optTruthy]), if_neg (by simp)]
          exact hb
        | some e =>
          by_cases he : e = ""
          · subst he
            rw [if_neg (by simp [optTruthy]),
              if_neg (fun h => hd (Option.some.inj h.1).symm)]
            exact hb
          · rw [if_pos (by simp [optTruthy, he])]
            simp only [DocumentTracker.add]
            rw [if_neg he]
            by_cases hed : e = d
            · subst hed
              rw [if_pos ⟨rfl, hcs'⟩]
              simp [Finset.mem_insert_self]
            · rw [if_neg (fun h => hed (Option.some.inj h.1))]
              rw [Finset.mem_insert]
              constructor
              · intro h
                rcases h with h | h
                · exact absurd h.symm hed
                · exact hb.mp h
              · intro h
                exact Or.inr (hb.mpr h)
    | del e =>
      show d ∈ (FaissStore.delete_by_document_id s e).tracker ↔
        FaissStore.trackedStep d b (.del e) = true
      rw [faiss_delete_tracker]
      simp only [FaissStore.trackedStep, DocumentTracker.remove]
      by_cases he : e = ""
      · subst he
        rw [if_pos rfl, if_neg (fun h : ("" : String) = d => hd h.symm)]
        exact hb
      · rw [if_neg he]
        by_cases hed : e = d
        · subst hed
          rw [if_pos rfl]
          simp [Finset.mem_erase]
        · rw [if_neg hed, Finset.mem_erase]
          constructor
          · intro h
            exact hb.mp h.2
          · intro h
            exact ⟨fun hh => hed hh.symm, hb.mpr h⟩

/-- C1 (amended): starting from any store state that does not yet track
the non-empty identifier `d`, after any sequence of `add_chunks` /
`delete_by_document_id` operations `d` is in the tracker (equivalently,
in `list_documents`) iff at least one `add_chunks` call with identifier
`d` and a *non-empty chunk list* has completed, with no later
`delete_by_document_id(d)` completed after it. -/
theorem claim_C1 (d : String) (hd : d ≠ "") (s : FaissStore.State)
    (h0 : d ∉ s.tracker) (ops : List FaissStore.Op) :
    (d ∈ (FaissStore.run s ops).tracker ↔ FaissStore.trackedSpec d ops = true) ∧
    (d ∈ FaissStore.list_documents (FaissStore.run s ops) ↔
      FaissStore.trackedSpec d ops = true) := by
  have h := run_tracker_mem d hd ops s false (by simpa using h0)
  refine ⟨h, ?_⟩
  rw [FaissStore.list_documents, DocumentTracker.listIds, Finset.mem_sort]
  exact h

theorem claim_C1_witness :
    ("d1" ∈ (FaissStore.run ⟨[], ∅, ∅⟩
        [FaissStore.Op.add (some "d1") [⟨"x", []⟩] [5]]).tracker ↔
      FaissStore.trackedSpec "d1" [FaissStore.Op.add (some "d1") [⟨"x", []⟩] [5]] = true) ∧
    ("d1" ∈ FaissStore.list_documents (FaissStore.run ⟨[], ∅, ∅⟩
        [FaissStore.Op.add (some "d1") [⟨"x", []⟩] [5]]) ↔
      FaissStore.trackedSpec "d1" [FaissStore.Op.add (some "d1") [⟨"x", []⟩] [5]] = true) :=
  claim_C1 "d1" (by decide) ⟨[], ∅, ∅⟩ (by decide)
    [FaissStore.Op.add (some "d1") [⟨"x", []⟩] [5]]

/-- C1 counterexample: an `add_chunks` call with an empty chunk list
*completes* (returning 0), so under the claim's wording the identifier
should afterwards appear in the tracker — but the code never registers
it: after `add_chunks([], "d1")` on a fresh store the tracker and
`list_documents()` stay empty. -/
theorem claim_C1_counterexample :
    FaissStore.claimAppears "d1" [FaissStore.Op.add (some "d1") [] []] = true ∧
    "d1" ∉ (FaissStore.run ⟨[], ∅, ∅⟩ [FaissStore.Op.add (some "d1") [] []]).tracker ∧
    "d1" ∉ FaissStore.list_documents
      (FaissStore.run ⟨[], ∅, ∅⟩ [FaissStore.Op.add (some "d1") [] []]) := by
  refine ⟨rfl, by decide, ?_⟩
  rw [FaissStore.list_documents, DocumentTracker.listIds, Finset.mem_sort]
  decide

/-- Every entry surviving a fold of dict assignments is either an
original entry or one of the assigned values. -/
lemma mem_foldl_mapInsert (P : Nat × Meta → Prop) :
    ∀ (entries base : List (Nat × Meta)), (∀ p ∈ entries, P p) →
      ∀ p ∈ entries.foldl (fun m q => FaissStore.mapInsert m q.1 q.2) base,
        p ∈ base ∨ P p := by
  intro entries
  induction entries with
  | nil => intro base _ p hp; exact Or.inl hp
  | cons e es ih =>
    intro base hE p hp
    have hstep := ih (FaissStore.mapInsert base e.1 e.2)
      (fun q hq => hE q (List.mem_cons_of_mem e hq)) p hp
    rcases hstep with h | h
    · unfold FaissStore.mapInsert at h
      rcases List.mem_cons.mp h with h | h
      · exact Or.inr (h ▸ hE e (List.mem_cons_self e es))
      · exact Or.inl (List.mem_of_mem_filter h)
    · exact Or.inr h

/-- The per-chunk metadata written by the FAISS add always carries the
written `document_id`. -/
lemma metaGet_chunkMeta (c : Chunk) (docId : Option String) :
    metaGet (FaissStore.chunkMeta c docId) "document_id" =
      some (.str (pyOrUnknown docId)) := by
  simp [FaissStore.chunkMeta, metaGet]

/-- C10: `add_chunks` with a falsy (`None` or empty) document identifier
stores every written chunk with metadata `document_id = "unknown"` and
performs no tracker mutation — `DocumentTracker.add` of a falsy
identifier is itself a no-op — so `list_documents()` is unchanged and the
chunks appear under no identifier the tracker could remove. -/
theorem claim_C10 (s : FaissStore.State) (c : Chunk) (cs : List Chunk)
    (uids : List Nat) (t : Finset String) (dId : Option String)
    (hfalsy : dId = none ∨ dId = some "") :
    DocumentTracker.add t dId = t ∧
    (FaissStore.add_chunks s (c :: cs) dId uids).1 = (c :: cs).length ∧
    (FaissStore.add_chunks s (c :: cs) dId uids).2.tracker = s.tracker ∧
    FaissStore.list_documents (FaissStore.add_chunks s (c :: cs) dId uids).2 =
      FaissStore.list_documents s ∧
    ∀ p ∈ (FaissStore.add_chunks s (c :: cs) dId uids).2.metadata,
      p ∈ s.metadata ∨ metaGet p.2 "document_id" = some (.str "unknown") := by
  have hopt : optTruthy dId = false := by
    rcases hfalsy with h | h <;> subst h <;> rfl
  have hadd : DocumentTracker.add t dId = t := by
    rcases hfalsy with h | h <;> subst h <;> simp [DocumentTracker.add]
  have hunk : pyOrUnknown dId = "unknown" := by
    rcases hfalsy with h | h <;> subst h <;> rfl
  refine ⟨hadd, ?_, ?_, ?_, ?_⟩
  · rfl
  · rw [faiss_add_tracker]
    simp [hopt]
  · rw [FaissStore.list_documents, FaissStore.list_documents, faiss_add_tracker]
    simp [hopt]
  · intro p hp
    have hmd : (FaissStore.add_chunks s (c :: cs) dId uids).2.metadata =
        ((uids.zip (c :: cs)).map (fun p => (p.1, FaissStore.chunkMeta p.2 dId))).foldl
          (fun m p => FaissStore.mapInsert m p.1 p.2) s.metadata := rfl
    rw [hmd] at hp
    refine mem_foldl_mapInsert
      (fun p => metaGet p.2 "document_id" = some (.str "unknown")) _ _ ?_ p hp
    intro q hq
    obtain ⟨pr, _, hpr⟩ := List.mem_map.mp hq
    rw [← hpr]
    rw [metaGet_chunkMeta, hunk]

theorem claim_C10_witness :
    DocumentTracker.add {"a"} none = {"a"} ∧
    (FaissStore.add_chunks ⟨[], ∅, ∅⟩ [⟨"x", []⟩] none [7]).1 = 1 ∧
    (FaissStore.add_chunks ⟨[], ∅, ∅⟩ [⟨"x", []⟩] none [7]).2.tracker = ∅ ∧
    metaGet (FaissStore.chunkMeta ⟨"x", []⟩ none) "document_id" =
      some (.str "unknown") := by
  have h := claim_C10 ⟨[], ∅, ∅⟩ ⟨"x", []⟩ [] [7] {"a"} none (Or.inl rfl)
  refine ⟨h.1, h.2.1, h.2.2.1, ?_⟩
  have hm := h.2.2.2.2 (7, FaissStore.chunkMeta ⟨"x", []⟩ none)
    (by simp [FaissStore.add_chunks, FaissStore.mapInsert])
  rcases hm with hm | hm
  · exact absurd hm (by simp)
  · exact hm

/-- A successful metadata-map lookup exhibits an entry of the map. -/
lemma mapLookup_mem :
    ∀ (m : List (Nat × Meta)) (k : Nat) (v : Meta),
      FaissStore.mapLookup m k = some v → (k, v) ∈ m := by
  intro m
  induction m with
  | nil => intro k v h; simp [FaissStore.mapLookup] at h
  | cons p ps ih =>
    intro k v h
    unfold FaissStore.mapLookup at h
    by_cases hk : p.1 = k
    · rw [if_pos hk] at h
      exact List.mem_cons.mpr (Or.inl (by rw [← hk, ← Option.some.inj h]))
    · rw [if_neg hk] at h
      exact List.mem_cons_of_mem p (ih k v h)

/-- After a FAISS delete, no metadata entry carries the deleted
document id. -/
lemma faiss_delete_metadata_clean (s : FaissStore.State) (d : String) :
    ∀ p ∈ (FaissStore.delete_by_document_id s d).metadata,
      ¬ metaGet p.2 "document_id" = some (.str d) := by
  intro p hp hmeta
  unfold FaissStore.delete_by_document_id at hp
  dsimp only at hp
  by_cases hI :
      ((s.metadata.filter
        (fun p => decide (metaGet p.2 "document_id" = some (.str d)))).map (·.1)).isEmpty
  · rw [if_pos hI] at hp
    have hmem : p.1 ∈ (s.metadata.filter
        (fun p => decide (metaGet p.2 "document_id" = some (.str d)))).map (·.1) :=
      List.mem_map.mpr ⟨p, List.mem_filter.mpr ⟨hp, by simpa using hmeta⟩, rfl⟩
    rw [List.isEmpty_iff] at hI
    rw [hI] at hmem
    exact absurd hmem (List.not_mem_nil _)
  · rw [if_neg hI] at hp
    have hp2 := List.mem_filter.mp hp
    have hmem : p.1 ∈ (s.metadata.filter
        (fun p => decide (metaGet p.2 "document_id" = some (.str d)))).map (·.1) :=
      List.mem_map.mpr ⟨p, List.mem_filter.mpr ⟨hp2.1, by simpa using hmeta⟩, rfl⟩
    have := hp2.2
    simp only [Bool.not_eq_eq_eq_not, Bool.not_true, decide_eq_false_iff_not] at this
    exact this hmem

/-- After a FAISS delete, no search result ever again carries the deleted
document id in its metadata. -/
lemma faiss_search_clean (s : FaissStore.State) (d : String)
    (cands : List (ℚ × Int)) (thOpt : Option ℚ) (dflt : ℚ) :
    ∀ r ∈ FaissStore.search (FaissStore.delete_by_document_id s d) cands thOpt dflt,
      ¬ metaGet r.metadata "document_id" = some (.str d) := by
  intro r hr
  unfold FaissStore.search at hr
  dsimp only at hr
  split at hr
  · simp at hr
  · obtain ⟨c, _, hrc⟩ := List.mem_map.mp hr
    rw [← hrc]
    dsimp only
    cases hl : FaissStore.mapLookup (FaissStore.delete_by_document_id s d).metadata c.2.toNat with
    | none => simp [metaGet]
    | some m =>
      simp only [Option.getD_some]
      exact faiss_delete_metadata_clean s d (c.2.toNat, m) (mapLookup_mem _ _ _ hl)

/-- Removing a tracker entry twice equals removing it once. -/
lemma tracker_remove_idem (t : Finset String) (d : Option String) :
    DocumentTracker.remove (DocumentTracker.remove t d) d =
      DocumentTracker.remove t d := by
  cases d with
  | none => rfl
  | some e =>
    by_cases he : e = ""
    · simp [DocumentTracker.remove, he]
    · simp [DocumentTracker.remove, he, Finset.erase_idem]

/-- Deleting a document from the FAISS store twice equals deleting it
once. -/
lemma faiss_delete_idem (s : FaissStore.State) (d : String) :
    FaissStore.delete_by_document_id (FaissStore.delete_by_document_id s d) d =
      FaissStore.delete_by_document_id s d := by
  have hclean := faiss_delete_metadata_clean s d
  have hfil : ((FaissStore.delete_by_document_id s d).metadata.filter
      (fun p => decide (metaGet p.2 "document_id" = some (.str d)))).map (·.1) = [] := by
    rw [List.map_eq_nil_iff, List.filter_eq_nil_iff]
    intro p hp
    simpa using hclean p hp
  have htr2 : DocumentTracker.remove
      (FaissStore.delete_by_document_id s d).tracker (some d) =
      (FaissStore.delete_by_document_id s d).tracker := by
    rw [faiss_delete_tracker, tracker_remove_idem, ← faiss_delete_tracker]
  conv_lhs => rw [FaissStore.delete_by_document_id]
  rw [hfil]
  simp only [List.isEmpty_nil, if_true, htr2]

/-- After a Chroma delete, no collection entry carries the deleted
document id. -/
lemma chroma_delete_entries_clean (s : ChromaStore.State) (d : String) :
    ∀ e ∈ (ChromaStore.delete_by_document_id s d).entries,
      ¬ metaGet e.meta "document_id" = some (.str d) := by
  intro e he hmeta
  unfold ChromaStore.delete_by_document_id at he
  dsimp only at he
  by_cases hI :
      ((s.entries.filter
        (fun e => decide (metaGet e.meta "document_id" = some (.str d)))).map (·.eid)).isEmpty
  · rw [if_pos hI] at he
    have hmem : e.eid ∈ (s.entries.filter
        (fun e => decide (metaGet e.meta "document_id" = some (.str d)))).map (·.eid) :=
      List.mem_map.mpr ⟨e, List.mem_filter.mpr ⟨he, by simpa using hmeta⟩, rfl⟩
    rw [List.isEmpty_iff] at hI
    rw [hI] at hmem
    exact absurd hmem (List.not_mem_nil _)
  · rw [if_neg hI] at he
    have he2 := List.mem_filter.mp he
    have hmem : e.eid ∈ (s.entries.filter
        (fun e => decide (metaGet e.meta "document_id" = some (.str d)))).map (·.eid) :=
      List.mem_map.mpr ⟨e, List.mem_filter.mpr ⟨he2.1, by simpa using hmeta⟩, rfl⟩
    have := he2.2
    simp only [Bool.not_eq_eq_eq_not, Bool.not_true, decide_eq_false_iff_not] at this
    exact this hmem

/-- Deleting a document from the Chroma store twice equals deleting it
once. -/
lemma chroma_delete_idem (s : ChromaStore.State) (d : String) :
    ChromaStore.delete_by_document_id (ChromaStore.delete_by_document_id s d) d =
      ChromaStore.delete_by_document_id s d := by
  have hclean := chroma_delete_entries_clean s d
  have hfil : ((ChromaStore.delete_by_document_id s d).entries.filter
      (fun e => decide (metaGet e.meta "document_id" = some (.str d)))).map (·.eid) = [] := by
    rw [List.map_eq_nil_iff, List.filter_eq_nil_iff]
    intro e he
    simpa using hclean e he
  have htr2 : DocumentTracker.remove
      (ChromaStore.delete_by_document_id s d).tracker (some d) =
      (ChromaStore.delete_by_document_id s d).tracker := by
    have htr : (ChromaStore.delete_by_document_id s d).tracker =
        DocumentTracker.remove s.tracker (some d) := rfl
    rw [htr, tracker_remove_idem]
  conv_lhs => rw [ChromaStore.delete_by_document_id]
  rw [hfil]
  simp only [List.isEmpty_nil, if_true, htr2]

/-- Every Chroma search result is built from one of the candidates. -/
lemma chromaSearch_mem (cands : List ChromaStore.Cand) (k : Nat)
    (thOpt : Option ℚ) (dflt : ℚ) :
    ∀ r ∈ ChromaStore.search cands k thOpt dflt,
      ∃ c ∈ cands, r = ChromaStore.mkResult c := by
  intro r hr
  have hsub := chromaSearch_sublist cands k thOpt dflt
  have hmem := hsub.mem hr
  obtain ⟨c, hc, hrc⟩ := List.mem_map.mp hmem
  exact ⟨c, hc, hrc.symm⟩

/-- C6: for the FAISS and Chroma backends, after
`delete_by_document_id(d)` on a store whose tracker does not hold the
empty identifier (an invariant of every state the code can produce), `d`
is gone from the tracker and from `list_documents()`; no later search
result carries metadata `document_id = d` (for Chroma, given that the
collection only ever returns stored entries); and a second delete is a
no-op: it raises nothing (the model is total) and leaves the state
exactly as after the first delete. -/
theorem claim_C6 (sf : FaissStore.State) (sc : ChromaStore.State) (d : String)
    (hf0 : "" ∉ sf.tracker) (hc0 : "" ∉ sc.tracker) :
    d ∉ (FaissStore.delete_by_document_id sf d).tracker ∧
    d ∉ FaissStore.list_documents (FaissStore.delete_by_document_id sf d) ∧
    (∀ (cands : List (ℚ × Int)) (thOpt : Option ℚ) (dflt : ℚ),
      ∀ r ∈ FaissStore.search (FaissStore.delete_by_document_id sf d) cands thOpt dflt,
        ¬ metaGet r.metadata "document_id" = some (.str d)) ∧
    FaissStore.delete_by_document_id (FaissStore.delete_by_document_id sf d) d =
      FaissStore.delete_by_document_id sf d ∧
    d ∉ (ChromaStore.delete_by_document_id sc d).tracker ∧
    d ∉ ChromaStore.list_documents (ChromaStore.delete_by_document_id sc d) ∧
    (∀ (cands : List ChromaStore.Cand) (k : Nat) (thOpt : Option ℚ) (dflt : ℚ),
      (∀ c ∈ cands, ∃ e ∈ (ChromaStore.delete_by_document_id sc d).entries,
        c.meta = e.meta) →
      ∀ r ∈ ChromaStore.search cands k thOpt dflt,
        ¬ metaGet r.metadata "document_id" = some (.str d)) ∧
    ChromaStore.delete_by_document_id (ChromaStore.delete_by_document_id sc d) d =
      ChromaStore.delete_by_document_id sc d := by
  have hremove : ∀ (t : Finset String), "" ∉ t → d ∉ DocumentTracker.remove t (some d) := by
    intro t ht
    by_cases hd : d = ""
    · subst hd
      simpa [DocumentTracker.remove] using ht
    · simp [DocumentTracker.remove, hd]
  have hft : d ∉ (FaissStore.delete_by_document_id sf d).tracker := by
    rw [faiss_delete_tracker]
    exact hremove sf.tracker hf0
  have hct : d ∉ (ChromaStore.delete_by_document_id sc d).tracker := by
    have htr : (ChromaStore.delete_by_document_id sc d).tracker =
        DocumentTracker.remove sc.tracker (some d) := rfl
    rw [htr]
    exact hremove sc.tracker hc0
  refine ⟨hft, ?_, ?_, faiss_delete_idem sf d, hct, ?_, ?_, chroma_delete_idem sc d⟩
  · rw [FaissStore.list_documents, DocumentTracker.listIds, Finset.mem_sort]
    exact hft
  · intro cands thOpt dflt r hr
    exact faiss_search_clean sf d cands thOpt dflt r hr
  · rw [ChromaStore.list_documents, DocumentTracker.listIds, Finset.mem_sort]
    exact hct
  · intro cands k thOpt dflt hcand r hr
    obtain ⟨c, hc, hrc⟩ := chromaSearch_mem cands k thOpt dflt r hr
    obtain ⟨e, he, hmeta⟩ := hcand c hc
    rw [hrc]
    show ¬ metaGet (ChromaStore.mkResult c).metadata "document_id" = some (.str d)
    have : (ChromaStore.mkResult c).metadata = e.meta := hmeta
    rw [this]
    exact chroma_delete_entries_clean sc d e he

theorem claim_C6_witness :
    "d1" ∉ (FaissStore.delete_by_document_id ⟨[], ∅, {"d1", "e"}⟩ "d1").tracker ∧
    "d1" ∉ FaissStore.list_documents
      (FaissStore.delete_by_document_id ⟨[], ∅, {"d1", "e"}⟩ "d1") ∧
    FaissStore.delete_by_document_id
        (FaissStore.delete_by_document_id ⟨[], ∅, {"d1", "e"}⟩ "d1") "d1" =
      FaissStore.delete_by_document_id ⟨[], ∅, {"d1", "e"}⟩ "d1" ∧
    ¬ metaGet ([("document_id", MVal.str "e")] : Meta) "document_id" =
      some (.str "d1") ∧
    ChromaStore.delete_by_document_id
        (ChromaStore.delete_by_document_id ⟨[], {"d1"}⟩ "d1") "d1" =
      ChromaStore.delete_by_document_id ⟨[], {"d1"}⟩ "d1" := by
  have h := claim_C6 ⟨[(5, [("document_id", MVal.str "e")])], {5}, {"d1", "e"}⟩
    ⟨[], {"d1"}⟩ "d1" (by decide) (by decide)
  have h2 := claim_C6 ⟨[], ∅, {"d1", "e"}⟩ ⟨[], {"d1"}⟩ "d1" (by decide) (by decide)
  refine ⟨h2.1, h2.2.1, h2.2.2.2.1, ?_, h.2.2.2.2.2.2.2⟩
  have hs := h.2.2.1 [(0, (5 : Int))] (some 0) 0
    ({ content := metaContentD [("document_id", MVal.str "e")],
       metadata := [("document_id", MVal.str "e")], distance := 1 - 0 })
    (by
      refine List.mem_map.mpr ⟨(0, (5 : Int)), ?_, ?_⟩
      · simp [FaissStore.delete_by_document_id, metaGet]
      · simp [FaissStore.delete_by_document_id, FaissStore.mapLookup, metaGet])
  exact hs

/-- Python slicing keeps at most `n` characters. -/
lemma strTake_length (s : String) (n : Nat) :
    (RAGChain.strTake s n).length ≤ n := by
  show (s.data.take n).length ≤ n
  simp [List.length_take]

/-- A string of positive length is not empty. -/
lemma string_ne_empty_of_pos {s : String} (h : 0 < s.length) : s ≠ "" := by
  intro hEq
  subst hEq
  exact absurd h (by decide)

/-- The join of a non-empty part list is at least as long as its head. -/
lemma joinParts_length (p : String) (ps : List String) :
    p.length ≤ (RAGChain.joinParts (p :: ps)).length := by
  cases ps with
  | nil => simp [RAGChain.joinParts]
  | cons q rest =>
    show p.length ≤ (p ++ "\n\n---\n\n" ++ RAGChain.joinParts (q :: rest)).length
    rw [String.length_append, String.length_append]
    omega

/-- Every context part carries at least its `[Source` label. -/
lemma contextPart_length (i : Nat) (r : SearchResult) :
    0 < (RAGChain.contextPart i r).length := by
  unfold RAGChain.contextPart
  simp only [String.length_append]
  have h8 : ("[Source " : String).length = 8 := rfl
  omega

/-- `_build_context` of a non-empty result list is never the empty
string, so the no-context branch of `query` is taken exactly on the empty
result list. -/
lemma buildContext_ne_empty (r : SearchResult) (rs : List SearchResult) :
    RAGChain.buildContext (r :: rs) ≠ "" := by
  have hshape : RAGChain.buildContext (r :: rs) =
      RAGChain.joinParts (RAGChain.contextPart 1 r ::
        (List.enumFrom 2 rs).map (fun p => RAGChain.contextPart p.1 p.2)) := rfl
  have h1 := contextPart_length 1 r
  have h2 := joinParts_length (RAGChain.contextPart 1 r)
    ((List.enumFrom 2 rs).map (fun p => RAGChain.contextPart p.1 p.2))
  refine string_ne_empty_of_pos ?_
  rw [hshape]
  omega

/-- The cloud-branch explanatory message is never empty. -/
lemma cloudAnswerHead_pos (status : Option Nat) :
    0 < (RAGChain.cloudAnswerHead status).length := by
  unfold RAGChain.cloudAnswerHead
  simp only [String.length_append]
  have h20 : ("Ollama Cloud error (" : String).length = 20 := rfl
  omega

/-- The local-branch explanatory message is never empty. -/
lemma localAnswerHead_pos (model : String) :
    0 < (RAGChain.localAnswerHead model).length := by
  unfold RAGChain.localAnswerHead
  simp only [String.length_append]
  have hpos : 0 < ("Ollama isn\x27t running, so I can\x27t generate a full answer. Start it with: **ollama serve** (and run **ollama pull " : String).length := by
    decide
  omega

/-- The excerpt substituted on generation failure is truncated to at most
501 characters (500 characters of content plus the ellipsis). -/
lemma snippetOf_length (r : SearchResult) (rs : List SearchResult) :
    (RAGChain.snippetOf (r :: rs)).length ≤ 501 := by
  show (if 500 < r.content.length then RAGChain.strTake r.content 500 ++ "…"
    else r.content).length ≤ 501
  split
  · rw [String.length_append]
    have h1 : (RAGChain.strTake r.content 500).length ≤ 500 := strTake_length _ _
    have h2 : ("…" : String).length = 1 := rfl
    omega
  · rename_i h
    rw [Nat.not_lt] at h
    omega

/-- C4: when the search returned at least one result and the generation
backend raises, `query` propagates no exception (the model is total) and
returns a response whose answer is a non-empty explanatory message
followed by the top result's excerpt (truncated to at most 501
characters), together with the sources and context chunks of all
results. -/
theorem claim_C4 (apiKey model question : String) (r : SearchResult)
    (rs : List SearchResult) (gen : String → RAGChain.GenOutcome)
    (status : Option Nat)
    (hgen : gen (RAGChain.ragPrompt (RAGChain.buildContext (r :: rs)) question) =
      .raised status) :
    (RAGChain.query apiKey model (r :: rs) gen question).answer ≠ "" ∧
    (∃ msg, msg ≠ "" ∧
      (RAGChain.query apiKey model (r :: rs) gen question).answer =
        msg ++ RAGChain.snippetOf (r :: rs)) ∧
    (RAGChain.snippetOf (r :: rs)).length ≤ 501 ∧
    (RAGChain.query apiKey model (r :: rs) gen question).sources =
      (r :: rs).map (fun x => (metaGet x.metadata "source", metaGet x.metadata "page")) ∧
    (RAGChain.query apiKey model (r :: rs) gen question).context_chunks =
      (r :: rs).map (fun x => x.content) := by
  have hctx := buildContext_ne_empty r rs
  have hsnip := snippetOf_length r rs
  by_cases hk : apiKey = ""
  · subst hk
    have hq : RAGChain.query "" model (r :: rs) gen question =
        { answer := RAGChain.localAnswerHead model ++ RAGChain.snippetOf (r :: rs)
          sources := (r :: rs).map
            (fun x => (metaGet x.metadata "source", metaGet x.metadata "page"))
          context_chunks := (r :: rs).map (fun x => x.content) } := by
      simp [RAGChain.query, hctx, hgen]
    rw [hq]
    refine ⟨?_, ⟨RAGChain.localAnswerHead model,
      string_ne_empty_of_pos (localAnswerHead_pos model), rfl⟩, hsnip, rfl, rfl⟩
    apply string_ne_empty_of_pos
    rw [String.length_append]
    have := localAnswerHead_pos model
    omega
  · have hq : RAGChain.query apiKey model (r :: rs) gen question =
        { answer := RAGChain.cloudAnswerHead status ++ RAGChain.snippetOf (r :: rs)
          sources := (r :: rs).map
            (fun x => (metaGet x.metadata "source", metaGet x.metadata "page"))
          context_chunks := (r :: rs).map (fun x => x.content) } := by
      simp [RAGChain.query, hctx, hgen, hk]
    rw [hq]
    refine ⟨?_, ⟨RAGChain.cloudAnswerHead status,
      string_ne_empty_of_pos (cloudAnswerHead_pos status), rfl⟩, hsnip, rfl, rfl⟩
    apply string_ne_empty_of_pos
    rw [String.length_append]
    have := cloudAnswerHead_pos status
    omega

theorem claim_C4_witness :
    (RAGChain.query "" "m" [⟨"hello", [], 0⟩] (fun _ => .raised none) "q").answer ≠ "" ∧
    (∃ msg, msg ≠ "" ∧
      (RAGChain.query "" "m" [⟨"hello", [], 0⟩] (fun _ => .raised none) "q").answer =
        msg ++ RAGChain.snippetOf [⟨"hello", [], 0⟩]) ∧
    (RAGChain.snippetOf [⟨"hello", [], 0⟩]).length ≤ 501 ∧
    (RAGChain.query "" "m" [⟨"hello", [], 0⟩] (fun _ => .raised none) "q").sources =
      [(metaGet ([] : Meta) "source", metaGet ([] : Meta) "page")] ∧
    (RAGChain.query "" "m" [⟨"hello", [], 0⟩] (fun _ => .raised none) "q").context_chunks =
      ["hello"] :=
  claim_C4 "" "m" "q" ⟨"hello", [], 0⟩ [] (fun _ => .raised none) none rfl

end RagSpec
